import Mathlib

/-!
# Verification of the shiekh-halls ranking and fee-balance core

Shallow embedding of the leaderboard/ranking aggregation from
`src/pages/ReportCards.tsx`, the balance computation from
`src/pages/StudentProfile.tsx`, and the fee-structure save/delete logic from
`src/components/finance/FeeStructureManager.tsx`, together with proofs of the
specified properties.

Conventions of the embedding:
* database ids are `String` (UUIDs in the source);
* JavaScript numbers that hold scores and money amounts are modelled as `Int`
  (the application only ever adds, subtracts and compares them);
* a nullable numeric column is `Option Int`; the JS coercion `Number(x || 0)`
  becomes `Option.getD · 0`;
* the JS `a || b` on numbers (where `0` and `null` are falsy) becomes `jsOr`;
* `Math.round` on a quotient `t / c` is `jsRound t c` (round half toward +∞,
  as JS does);
* object maps keyed by id (`studentMap`, `subjectMap`) become association
  lists in first-insertion order, matching the iteration order of
  `Object.values` for string keys.
-/

/-- JS `a || b` for numeric values: `0` (and `null`, already collapsed to `0`)
is falsy. -/
def jsOr (a b : Int) : Int := if a = 0 then b else a

/-- JS `Math.round (t / c)` for an integer total `t` and a positive count `c`:
`Math.round x = ⌊x + 1/2⌋` (halves round toward +∞), so the result is
`⌊(2*t + c) / (2*c)⌋` using floor division. -/
def jsRound (t : Int) (c : Nat) : Int := Int.fdiv (2 * t + (c : Int)) (2 * (c : Int))

/-- One row of `report_cards` joined with its student, as consumed by the
leaderboard code in `ReportCards.tsx`: `r.student_id`, `r.score` (nullable
numeric) and `(r.students as any)?.class_id`. -/
structure ScoreRecord where
  student_id : String
  subject_id : String
  class_id : String
  term : String
  academic_year : String
  score : Option Int
deriving Repr, DecidableEq

/-- One value of the `studentMap` accumulator:
`{ student, totalScore, count }` (the `student` payload is identified by
`student_id`). -/
structure AggEntry where
  student_id : String
  totalScore : Int
  count : Nat
deriving Repr, DecidableEq

/-- An aggregated entry after the `average` field has been computed. -/
structure AvgEntry where
  student_id : String
  totalScore : Int
  count : Nat
  average : Int
deriving Repr, DecidableEq

/-- A leaderboard row after rank assignment. -/
structure RankedEntry where
  student_id : String
  totalScore : Int
  count : Nat
  average : Int
  rank : Nat
deriving Repr, DecidableEq

/-- The loop body `studentMap[sid].totalScore += Number(r.score || 0); studentMap[sid].count++`
with creation of a fresh `{ totalScore: 0, count: 0 }` entry on first sight of
the student.  The association list keeps first-insertion order, and an update
touches the (unique) entry with the matching key. -/
def bump (r : ScoreRecord) : List AggEntry → List AggEntry
  | [] => [⟨r.student_id, r.score.getD 0, 1⟩]
  | a :: as =>
    if a.student_id = r.student_id then
      { a with totalScore := a.totalScore + r.score.getD 0, count := a.count + 1 } :: as
    else
      a :: bump r as

/-- The `classReports.forEach(...)` aggregation loop building `studentMap`. -/
def aggregate (rs : List ScoreRecord) : List AggEntry :=
  rs.foldl (fun m r => bump r m) []

/-- The averaging pass `.map(s => ({ ...s, average: s.count > 0 ? Math.round(s.totalScore / s.count) : 0 }))`. -/
def withAverage (m : List AggEntry) : List AvgEntry :=
  m.map fun a =>
    ⟨a.student_id, a.totalScore, a.count, if 0 < a.count then jsRound a.totalScore a.count else 0⟩

/-- Stable insertion of an entry into a descending-by-average list: an element
goes after every existing element with an average at least as large, which is
exactly the relative order a stable JS `sort((a, b) => b.average - a.average)`
produces. -/
def insertDesc (a : AvgEntry) : List AvgEntry → List AvgEntry
  | [] => [a]
  | b :: bs => if b.average < a.average then a :: b :: bs else b :: insertDesc a bs

/-- Stable descending sort by `average`, the extensional behaviour of
`.sort((a, b) => b.average - a.average)` on a stable sort implementation:
elements are inserted left to right, each one after the already-placed
elements whose average ties with it. -/
def sortDesc (l : List AvgEntry) : List AvgEntry :=
  l.foldl (fun acc a => insertDesc a acc) []

/-- The rank-assignment pass
`.map((s, i, arr) => { let rank = i + 1; if (i > 0 && arr[i].average === arr[i-1].average) rank = arr[i-1].rank; ... })`:
`prev` carries the previous element's `(average, rank)` (written into the array
by the previous iteration), `i` is the current index. -/
def nextRank (a : AvgEntry) (prev : Option (Int × Nat)) (i : Nat) : Nat :=
  match prev with
  | some pr => if a.average = pr.1 then pr.2 else i + 1
  | none => i + 1

/-- The recursion over the sorted array performing the rank-assignment pass. -/
def rankGo (prev : Option (Int × Nat)) (i : Nat) : List AvgEntry → List RankedEntry
  | [] => []
  | a :: as =>
    ⟨a.student_id, a.totalScore, a.count, a.average, nextRank a prev i⟩ ::
      rankGo (some (a.average, nextRank a prev i)) (i + 1) as

/-- The full `classLeaderboard` `useMemo` body: the empty-selection early
return, the class filter on the joined student's `class_id`, aggregation,
averaging, descending sort, and rank assignment. -/
def classLeaderboard (selectedClass : String) (allReportCards : List ScoreRecord) :
    List RankedEntry :=
  if selectedClass = "" then []
  else
    rankGo none 0 <| sortDesc <| withAverage <| aggregate <|
      allReportCards.filter fun r => r.class_id = selectedClass

/-- The aggregated, averaged and sorted school-wide list (no class filter),
before truncation: the input to `.slice(0, 10)` in `schoolLeaderboard`. -/
def schoolSorted (allReportCards : List ScoreRecord) : List AvgEntry :=
  sortDesc <| withAverage <| aggregate allReportCards

/-- The `schoolLeaderboard` `useMemo` body: aggregate all records, sort by
average descending, `.slice(0, 10)`, then assign ranks. -/
def schoolLeaderboard (allReportCards : List ScoreRecord) : List RankedEntry :=
  rankGo none 0 ((schoolSorted allReportCards).take 10)

/-- One row of `fee_payments` as read by `StudentProfile.tsx` (only
`amount_paid` is consumed by the balance computation). -/
structure Payment where
  id : String
  student_id : String
  amount_paid : Int
deriving Repr, DecidableEq

/-- One row of `fee_structures` as read and written by
`FeeStructureManager.tsx` and `StudentProfile.tsx`. -/
structure FeeStructureRow where
  id : String
  class_id : String
  academic_year_id : String
  tuition_fee : Int
  exam_fee : Int
  other_fee : Int
  total_fee : Int
  amount : Int
  fee_type : String
  is_active : Bool
deriving Repr, DecidableEq

/-- The derived balance view computed in `StudentProfile.tsx`
(`is_settled` reflects the `balance > 0 ? owing : settled` rendering). -/
structure Balance where
  total_fee : Int
  total_paid : Int
  balance : Int
  is_settled : Bool
deriving Repr, DecidableEq

/-- Lines 103–105 of `StudentProfile.tsx`:
`totalPaid = payments.reduce((sum, p) => sum + Number(p.amount_paid), 0)`,
`totalFee = feeStructure ? Number(feeStructure.total_fee || feeStructure.amount || 0) : 0`,
`balance = totalFee - totalPaid`; settled is rendered whenever `balance ≤ 0`. -/
def computeBalance (feeStructure : Option FeeStructureRow) (payments : List Payment) :
    Balance :=
  let totalPaid := payments.foldl (fun sum p => sum + p.amount_paid) 0
  let totalFee :=
    match feeStructure with
    | some fs => jsOr (jsOr fs.total_fee fs.amount) 0
    | none => 0
  { total_fee := totalFee
    total_paid := totalPaid
    balance := totalFee - totalPaid
    is_settled := decide (totalFee - totalPaid ≤ 0) }

/-- The form state handed to `handleSave`: the selected class/year ids (the
empty string models a missing selection, JS-falsy), the three component fees
after `parseFloat(...) || 0`, and the id being edited (none for a create). -/
structure SaveInput where
  classId : String
  yearId : String
  tuition : Int
  exam : Int
  other : Int
  editingId : Option String
deriving Repr, DecidableEq

/-- The three early-return rejection paths of `handleSave`. -/
inductive SaveError where
  | missingSelection
  | invalidFeeTotal
  | duplicateFeeStructure
deriving Repr, DecidableEq

/-- The duplicate query of `handleSave`: rows with the same `class_id` and
`academic_year_id` that are still active. -/
def hasActiveDuplicate (classId yearId : String) (rows : List FeeStructureRow) : Bool :=
  rows.any fun fs => fs.class_id = classId ∧ fs.academic_year_id = yearId ∧ fs.is_active

/-- The `payload` object built in `handleSave`: both `total_fee` and `amount`
are set to `tuition + exam + other`, `fee_type` is the literal `'annual'`,
and the row is active. -/
def mkPayload (inp : SaveInput) (rowId : String) : FeeStructureRow :=
  { id := rowId
    class_id := inp.classId
    academic_year_id := inp.yearId
    tuition_fee := inp.tuition
    exam_fee := inp.exam
    other_fee := inp.other
    total_fee := inp.tuition + inp.exam + inp.other
    amount := inp.tuition + inp.exam + inp.other
    fee_type := "annual"
    is_active := true }

/-- The `handleSave` handler of `FeeStructureManager.tsx` against a snapshot
`rows` of the `fee_structures` table: reject when no class/year is selected,
reject when the component sum is ≤ 0, for a create reject when an active
structure for the same (class, year) exists and otherwise insert the payload
(under the store-generated id `newId`), and for an edit update the row with
the matching id in place. -/
def handleSave (inp : SaveInput) (rows : List FeeStructureRow) (newId : String) :
    Except SaveError (List FeeStructureRow) :=
  if inp.classId = "" ∨ inp.yearId = "" then
    .error .missingSelection
  else if inp.tuition + inp.exam + inp.other ≤ 0 then
    .error .invalidFeeTotal
  else
    match inp.editingId with
    | none =>
      if hasActiveDuplicate inp.classId inp.yearId rows then
        .error .duplicateFeeStructure
      else
        .ok (rows ++ [mkPayload inp newId])
    | some editingId =>
      .ok (rows.map fun fs => if fs.id = editingId then mkPayload inp editingId else fs)

/-- The stored table after a `handleSave` call: unchanged when the handler
returned early with an error, the handler's result otherwise. -/
def runSave (inp : SaveInput) (rows : List FeeStructureRow) (newId : String) :
    List FeeStructureRow :=
  match handleSave inp rows newId with
  | .ok rows' => rows'
  | .error _ => rows

/-- The `handleDelete` handler:
`update({ is_active: false }).eq('id', id)` — flip `is_active` off on the row
with the matching id, touching nothing else. -/
def handleDelete (deleteId : String) (rows : List FeeStructureRow) : List FeeStructureRow :=
  rows.map fun fs => if fs.id = deleteId then { fs with is_active := false } else fs

/-- Total score the accumulator attributes to student `sid` (summed over its
entries with that key; the accumulator keeps at most one, so this is that
entry's total, or 0 if the student has not been seen). -/
def totalsOf (m : List AggEntry) (sid : String) : Int :=
  ((m.filter fun a => a.student_id = sid).map fun a => a.totalScore).sum

/-- Subject count the accumulator attributes to student `sid`. -/
def countsOf (m : List AggEntry) (sid : String) : Nat :=
  ((m.filter fun a => a.student_id = sid).map fun a => a.count).sum

/-- Sum of the coerced scores (`Number(r.score || 0)`) of the records of
student `sid` in the input. -/
def scoreSumOf (rs : List ScoreRecord) (sid : String) : Int :=
  ((rs.filter fun r => r.student_id = sid).map fun r => r.score.getD 0).sum

/-- Number of records of student `sid` in the input. -/
def recordCountOf (rs : List ScoreRecord) (sid : String) : Nat :=
  (rs.filter fun r => r.student_id = sid).length

/-- Default `RankedEntry` used with `List.getD` when stating positional
properties of leaderboards. -/
def dRanked : RankedEntry := ⟨"", 0, 0, 0, 0⟩

/-- A convenience builder for score records in concrete test inputs: one
subject score for a student of class `"c1"`. -/
def mkScore (sid : String) (sc : Int) : ScoreRecord :=
  ⟨sid, "sub", "c1", "first", "2025-2026", some sc⟩

/-- The spec's tie example: three students scoring 90, 90 and 80. -/
def exTie : List ScoreRecord := [mkScore "s1" 90, mkScore "s2" 90, mkScore "s3" 80]

/-- The spec's top-N example: 15 students with pairwise distinct averages
50, 51, ..., 64. -/
def ex15 : List ScoreRecord :=
  [mkScore "t01" 50, mkScore "t02" 51, mkScore "t03" 52, mkScore "t04" 53,
   mkScore "t05" 54, mkScore "t06" 55, mkScore "t07" 56, mkScore "t08" 57,
   mkScore "t09" 58, mkScore "t10" 59, mkScore "t11" 60, mkScore "t12" 61,
   mkScore "t13" 62, mkScore "t14" 63, mkScore "t15" 64]

/-- A record carrying a score outside [0,100]. -/
def badScore : ScoreRecord := ⟨"s1", "sub", "c1", "first", "2025-2026", some 150⟩

/-- The spec's balance example: a structure whose total fee is 300000. -/
def exFee300k : FeeStructureRow :=
  ⟨"f1", "c1", "y1", 200000, 50000, 50000, 300000, 300000, "annual", true⟩

/-- First example payment (100000). -/
def exPayA : Payment := ⟨"p1", "s1", 100000⟩

/-- Second example payment (50000). -/
def exPayB : Payment := ⟨"p2", "s1", 50000⟩

/-- An active fee structure for class `"c1"` and year `"y1"`. -/
def dupRow : FeeStructureRow := ⟨"f1", "c1", "y1", 100, 0, 0, 100, 100, "annual", true⟩

/-- A create attempt for class `"c1"`, year `"y1"` with all component fees 0. -/
def zeroFeeInput : SaveInput := ⟨"c1", "y1", 0, 0, 0, none⟩

/-- The spec's fee-structure example: components 50000, 10000, 5000. -/
def createInput : SaveInput := ⟨"c1", "y1", 50000, 10000, 5000, none⟩

/-- One invocation of the class-leaderboard computation, returning the result
together with the (unchanged) input snapshot, so that repeated invocation on
the snapshot a previous call handed back can be stated. -/
def rankClassCall (selectedClass : String) (rs : List ScoreRecord) :
    List RankedEntry × List ScoreRecord :=
  (classLeaderboard selectedClass rs, rs)

theorem rankGo_length (prev : Option (Int × Nat)) (i : Nat) (l : List AvgEntry) :
    (rankGo prev i l).length = l.length := by
  induction l generalizing prev i with
  | nil => rfl
  | cons a as ih => simp [rankGo, ih]

theorem rankGo_take (n : Nat) (prev : Option (Int × Nat)) (i : Nat) (l : List AvgEntry) :
    rankGo prev i (l.take n) = (rankGo prev i l).take n := by
  induction l generalizing n prev i with
  | nil => simp [rankGo]
  | cons a as ih =>
    cases n with
    | zero => simp [rankGo]
    | succ m => simp [rankGo, ih]

theorem rankGo_map_average (prev : Option (Int × Nat)) (i : Nat) (l : List AvgEntry) :
    (rankGo prev i l).map (fun e => e.average) = l.map (fun a => a.average) := by
  induction l generalizing prev i with
  | nil => rfl
  | cons a as ih => simp [rankGo, ih]

theorem rankGo_first_rank (l : List AvgEntry) (h : 0 < l.length) :
    ((rankGo none 0 l).getD 0 dRanked).rank = 1 := by
  cases l with
  | nil => simp at h
  | cons a as => simp [rankGo, nextRank]

theorem rankGo_rank_succ (l : List AvgEntry) (prev : Option (Int × Nat)) (i j : Nat)
    (h : j + 1 < l.length) :
    ((rankGo prev i l).getD (j + 1) dRanked).rank =
      if ((rankGo prev i l).getD (j + 1) dRanked).average
          = ((rankGo prev i l).getD j dRanked).average
      then ((rankGo prev i l).getD j dRanked).rank
      else i + j + 2 := by
  induction l generalizing prev i j with
  | nil => simp at h
  | cons a as ih =>
    cases j with
    | zero =>
      cases as with
      | nil => simp at h
      | cons b bs =>
        simp [rankGo, nextRank]
    | succ k =>
      have h' : k + 1 < as.length := by simpa using h
      have hk := ih (some (a.average, nextRank a prev i)) (i + 1) k h'
      simpa [rankGo, Nat.add_assoc, Nat.add_comm, Nat.add_left_comm] using hk

theorem mem_insertDesc {a x : AvgEntry} {l : List AvgEntry} :
    x ∈ insertDesc a l ↔ x = a ∨ x ∈ l := by
  induction l with
  | nil => simp [insertDesc]
  | cons b bs ih =>
    by_cases hba : b.average < a.average
    · simp [insertDesc, hba]
    · simp [insertDesc, hba, ih]
      tauto

theorem insertDesc_pairwise {l : List AvgEntry}
    (hl : l.Pairwise (fun x y => y.average ≤ x.average)) (a : AvgEntry) :
    (insertDesc a l).Pairwise (fun x y => y.average ≤ x.average) := by
  induction l with
  | nil => simp [insertDesc]
  | cons b bs ih =>
    rw [List.pairwise_cons] at hl
    obtain ⟨hb, hbs⟩ := hl
    by_cases hba : b.average < a.average
    · rw [insertDesc]
      simp only [if_pos hba]
      rw [List.pairwise_cons]
      refine ⟨?_, ?_⟩
      · intro z hz
        rcases List.mem_cons.mp hz with hz | hz
        · exact hz ▸ le_of_lt hba
        · exact le_trans (hb z hz) (le_of_lt hba)
      · rw [List.pairwise_cons]
        exact ⟨hb, hbs⟩
    · rw [insertDesc]
      simp only [if_neg hba]
      rw [List.pairwise_cons]
      refine ⟨?_, ih hbs⟩
      intro z hz
      rcases mem_insertDesc.mp hz with hz | hz
      · exact hz ▸ le_of_not_lt hba
      · exact hb z hz

theorem insertDesc_perm (a : AvgEntry) (l : List AvgEntry) :
    List.Perm (insertDesc a l) (a :: l) := by
  induction l with
  | nil => rfl
  | cons b bs ih =>
    by_cases hba : b.average < a.average
    · simp [insertDesc, hba]
    · rw [insertDesc]
      simp only [if_neg hba]
      exact (ih.cons b).trans (List.Perm.swap a b bs)

theorem sortDesc_pairwise (l : List AvgEntry) :
    (sortDesc l).Pairwise (fun x y => y.average ≤ x.average) := by
  suffices h : ∀ (l acc : List AvgEntry),
      acc.Pairwise (fun x y => y.average ≤ x.average) →
      (l.foldl (fun acc a => insertDesc a acc) acc).Pairwise
        (fun x y => y.average ≤ x.average) by
    exact h l [] (by simp)
  intro l
  induction l with
  | nil => intro acc hacc; exact hacc
  | cons a as ih =>
    intro acc hacc
    exact ih (insertDesc a acc) (insertDesc_pairwise hacc a)

theorem sortDesc_perm (l : List AvgEntry) : List.Perm (sortDesc l) l := by
  suffices h : ∀ (l acc : List AvgEntry),
      List.Perm (l.foldl (fun acc a => insertDesc a acc) acc) (acc ++ l) by
    simpa using h l []
  intro l
  induction l with
  | nil => intro acc; simp
  | cons a as ih =>
    intro acc
    refine List.Perm.trans (ih (insertDesc a acc)) ?_
    refine List.Perm.trans ((insertDesc_perm a acc).append_right as) ?_
    exact List.perm_middle.symm

theorem bump_totalsOf (r : ScoreRecord) (m : List AggEntry) (sid : String) :
    totalsOf (bump r m) sid =
      totalsOf m sid + if r.student_id = sid then r.score.getD 0 else 0 := by
  induction m with
  | nil =>
    by_cases h : r.student_id = sid <;> simp [bump, totalsOf, h]
  | cons a as ih =>
    by_cases har : a.student_id = r.student_id
    · by_cases has : a.student_id = sid
      · have hrs : r.student_id = sid := har ▸ has
        simp [bump, totalsOf, har, has, hrs]
        ring
      · have hrs : ¬ r.student_id = sid := fun h => has (har ▸ h)
        simp [bump, totalsOf, har, has, hrs]
    · by_cases has : a.student_id = sid
      · have := ih
        simp only [bump, if_neg har]
        simp only [totalsOf, List.filter_cons, has, List.map_cons,
          List.sum_cons] at *
        simp [has]
        rw [this]
        ring
      · simp only [bump, if_neg har]
        simp only [totalsOf, List.filter_cons, has] at *
        simpa [has] using ih

theorem bump_countsOf (r : ScoreRecord) (m : List AggEntry) (sid : String) :
    countsOf (bump r m) sid =
      countsOf m sid + if r.student_id = sid then 1 else 0 := by
  induction m with
  | nil =>
    by_cases h : r.student_id = sid <;> simp [bump, countsOf, h]
  | cons a as ih =>
    by_cases har : a.student_id = r.student_id
    · by_cases has : a.student_id = sid
      · have hrs : r.student_id = sid := har ▸ has
        simp [bump, countsOf, har, has, hrs]
        ring
      · have hrs : ¬ r.student_id = sid := fun h => has (har ▸ h)
        simp [bump, countsOf, har, has, hrs]
    · by_cases has : a.student_id = sid
      · simp only [bump, if_neg har]
        simp only [countsOf, List.filter_cons, has, List.map_cons,
          List.sum_cons] at *
        simp [has]
        rw [ih]
        ring
      · simp only [bump, if_neg har]
        simp only [countsOf, List.filter_cons, has] at *
        simpa [has] using ih

theorem foldl_bump_totalsOf (rs : List ScoreRecord) (m : List AggEntry) (sid : String) :
    totalsOf (rs.foldl (fun m r => bump r m) m) sid = totalsOf m sid + scoreSumOf rs sid := by
  induction rs generalizing m with
  | nil => simp [scoreSumOf]
  | cons r rs ih =>
    by_cases h : r.student_id = sid
    · simp only [List.foldl_cons, ih (bump r m), bump_totalsOf, h, if_pos]
      simp [scoreSumOf, List.filter_cons, h]
      ring
    · simp only [List.foldl_cons, ih (bump r m), bump_totalsOf, h, if_neg]
      simp [scoreSumOf, List.filter_cons, h]

theorem foldl_bump_countsOf (rs : List ScoreRecord) (m : List AggEntry) (sid : String) :
    countsOf (rs.foldl (fun m r => bump r m) m) sid = countsOf m sid + recordCountOf rs sid := by
  induction rs generalizing m with
  | nil => simp [recordCountOf]
  | cons r rs ih =>
    by_cases h : r.student_id = sid
    · simp only [List.foldl_cons, ih (bump r m), bump_countsOf, h, if_pos]
      simp [recordCountOf, List.filter_cons, h]
      ring
    · simp only [List.foldl_cons, ih (bump r m), bump_countsOf, h, if_neg]
      simp [recordCountOf, List.filter_cons, h]

theorem aggregate_totalsOf (rs : List ScoreRecord) (sid : String) :
    totalsOf (aggregate rs) sid = scoreSumOf rs sid := by
  simpa [totalsOf] using foldl_bump_totalsOf rs [] sid

theorem aggregate_countsOf (rs : List ScoreRecord) (sid : String) :
    countsOf (aggregate rs) sid = recordCountOf rs sid := by
  simpa [countsOf] using foldl_bump_countsOf rs [] sid

theorem bump_count_pos {m : List AggEntry} (hm : ∀ e ∈ m, 0 < e.count)
    (r : ScoreRecord) : ∀ e ∈ bump r m, 0 < e.count := by
  induction m with
  | nil =>
    intro e he
    simp [bump] at he
    simp [he]
  | cons a as ih =>
    intro e he
    by_cases har : a.student_id = r.student_id
    · rw [bump, if_pos har] at he
      rcases List.mem_cons.mp he with he | he
      · simp [he]
      · exact hm e (List.mem_cons_of_mem a he)
    · rw [bump, if_neg har] at he
      rcases List.mem_cons.mp he with he | he
      · exact he ▸ hm a (List.mem_cons_self a as)
      · exact ih (fun x hx => hm x (List.mem_cons_of_mem a hx)) e he

theorem aggregate_count_pos (rs : List ScoreRecord) :
    ∀ e ∈ aggregate rs, 0 < e.count := by
  suffices h : ∀ (rs : List ScoreRecord) (m : List AggEntry),
      (∀ e ∈ m, 0 < e.count) →
      ∀ e ∈ rs.foldl (fun m r => bump r m) m, 0 < e.count by
    exact h rs [] (by simp)
  intro rs
  induction rs with
  | nil => intro m hm; exact hm
  | cons r rs ih =>
    intro m hm
    exact ih (bump r m) (bump_count_pos hm r)

theorem foldl_amount (ps : List Payment) (s : Int) :
    ps.foldl (fun acc p => acc + p.amount_paid) s = s + (ps.map fun p => p.amount_paid).sum := by
  induction ps generalizing s with
  | nil => simp
  | cons p ps ih => simp [ih, add_assoc]

/-- C3 — computeBalance: for every fee structure (present or absent) and every
list of matching payments, `total_paid` is the sum of the payments'
`amount_paid`, `balance = total_fee − total_paid`, an absent structure gives
`total_fee = 0`, `is_settled` holds exactly when `balance ≤ 0`, and the spec's
example (total fee 300000, payments 100000 and 50000) yields total paid
150000, balance 150000, not settled. -/
theorem claim_c3_compute_balance (fs : Option FeeStructureRow) (ps : List Payment) :
    (computeBalance fs ps).total_paid = (ps.map fun p => p.amount_paid).sum
    ∧ (computeBalance fs ps).balance =
        (computeBalance fs ps).total_fee - (computeBalance fs ps).total_paid
    ∧ (computeBalance none ps).total_fee = 0
    ∧ ((computeBalance fs ps).is_settled = true ↔ (computeBalance fs ps).balance ≤ 0)
    ∧ computeBalance (some exFee300k) [exPayA, exPayB] =
        ⟨300000, 150000, 150000, false⟩ := by
  refine ⟨?_, rfl, rfl, ?_, by decide⟩
  · simpa using foldl_amount ps 0
  · simp [computeBalance]

theorem claim_c3_compute_balance_witness :
    computeBalance (some exFee300k) [exPayA, exPayB] = ⟨300000, 150000, 150000, false⟩ :=
  (claim_c3_compute_balance (some exFee300k) [exPayA, exPayB]).2.2.2.2

/-- C4 counterexample — the aggregation does NOT exclude a record whose score
lies outside [0,100]: a single record with score 150 produces an aggregated
entry with total 150 and count 1 (exclusion would leave the student absent,
with total 0 and count 0), and the student appears on the leaderboard with
average 150. -/
theorem claim_c4_counterexample :
    aggregate [badScore] = [⟨"s1", 150, 1⟩]
    ∧ classLeaderboard "c1" [badScore] = [⟨"s1", 150, 1, 150, 1⟩]
    ∧ totalsOf (aggregate [badScore]) "s1" = 150
    ∧ countsOf (aggregate [badScore]) "s1" = 1 := by
  decide

/-- C4 amended — for every input set and every student, the aggregation is
total (never crashes) and includes every record of that student in the
aggregated totals and counts regardless of the score's range: the entry's
total is the sum of `Number(score || 0)` over all of the student's records and
its count is the number of those records; no record is excluded and no
MalformedScore warning exists in this code path. -/
theorem claim_c4_amended_inclusion (rs : List ScoreRecord) (sid : String) :
    totalsOf (aggregate rs) sid = scoreSumOf rs sid
    ∧ countsOf (aggregate rs) sid = recordCountOf rs sid :=
  ⟨aggregate_totalsOf rs sid, aggregate_countsOf rs sid⟩

/-- C8 — idempotence and determinism of the ranking: invoking the
class-leaderboard computation a second time, on the snapshot handed back by
the first invocation, yields the identical output, and the input snapshot
comes back unchanged from both calls. -/
theorem claim_c8_rank_idempotent (selectedClass : String) (rs : List ScoreRecord) :
    (rankClassCall selectedClass (rankClassCall selectedClass rs).2).1 =
      (rankClassCall selectedClass rs).1
    ∧ (rankClassCall selectedClass (rankClassCall selectedClass rs).2).2 = rs :=
  ⟨rfl, rfl⟩

/-- C1 — carry-forward tie ranking: in every class leaderboard the first entry
has rank 1, each subsequent entry has the previous entry's rank when its
average equals the previous entry's average and otherwise its 1-based position
in the sorted sequence, and the spec's example (scores 90, 90, 80) receives
ranks [1, 1, 3]. -/
theorem claim_c1_carry_forward_ranks (selectedClass : String) (rs : List ScoreRecord) :
    (0 < (classLeaderboard selectedClass rs).length →
      ((classLeaderboard selectedClass rs).getD 0 dRanked).rank = 1)
    ∧ (∀ j, j + 1 < (classLeaderboard selectedClass rs).length →
        ((classLeaderboard selectedClass rs).getD (j + 1) dRanked).rank =
          if ((classLeaderboard selectedClass rs).getD (j + 1) dRanked).average
              = ((classLeaderboard selectedClass rs).getD j dRanked).average
          then ((classLeaderboard selectedClass rs).getD j dRanked).rank
          else j + 2)
    ∧ (classLeaderboard "c1" exTie).map (fun e => e.rank) = [1, 1, 3] := by
  refine ⟨?_, ?_, by decide⟩
  · intro h
    by_cases hc : selectedClass = ""
    · simp [classLeaderboard, hc] at h
    · simp only [classLeaderboard, if_neg hc] at h ⊢
      refine rankGo_first_rank _ ?_
      rwa [rankGo_length] at h
  · intro j hj
    by_cases hc : selectedClass = ""
    · simp [classLeaderboard, hc] at hj
    · simp only [classLeaderboard, if_neg hc] at hj ⊢
      have hj' := hj
      rw [rankGo_length] at hj'
      have := rankGo_rank_succ _ none 0 j hj'
      simpa using this

theorem claim_c1_carry_forward_ranks_witness :
    ((classLeaderboard "c1" exTie).getD 0 dRanked).rank = 1
    ∧ ((classLeaderboard "c1" exTie).getD 2 dRanked).rank = 3 := by
  have h1 := (claim_c1_carry_forward_ranks "c1" exTie).1 (by decide)
  have h2 := (claim_c1_carry_forward_ranks "c1" exTie).2.1 1 (by decide)
  refine ⟨h1, ?_⟩
  rw [h2]
  decide

/-- C2 — school-wide top-N leaderboard: for every record set the school
leaderboard equals ranking the full sorted set with the carry-forward rule and
then truncating to the first 10 entries after ranking, its length is
`min 10` the number of aggregated students, its entries are in descending
average order, and on 15 students with pairwise distinct averages it has
exactly the top 10 averages in descending order. -/
theorem claim_c2_school_top_ten (rs : List ScoreRecord) :
    schoolLeaderboard rs = (rankGo none 0 (schoolSorted rs)).take 10
    ∧ (schoolLeaderboard rs).length = min 10 (schoolSorted rs).length
    ∧ (schoolLeaderboard rs).Pairwise (fun x y => y.average ≤ x.average)
    ∧ (schoolLeaderboard ex15).length = 10
    ∧ (schoolLeaderboard ex15).map (fun e => e.average) =
        [64, 63, 62, 61, 60, 59, 58, 57, 56, 55] := by
  refine ⟨?_, ?_, ?_, by decide, by decide⟩
  · simp only [schoolLeaderboard]
    exact rankGo_take 10 none 0 _
  · simp [schoolLeaderboard, rankGo_length]
  · have hs : (schoolSorted rs).Pairwise (fun x y => y.average ≤ x.average) :=
      sortDesc_pairwise _
    have ht : ((schoolSorted rs).take 10).Pairwise (fun x y => y.average ≤ x.average) :=
      List.Pairwise.sublist (List.take_sublist 10 _) hs
    have h1 : (((schoolSorted rs).take 10).map fun a => a.average).Pairwise
        (fun u v => v ≤ u) := List.pairwise_map.mpr ht
    rw [← rankGo_map_average none 0] at h1
    exact List.pairwise_map.mp h1

/-- C5 counterexample — the claim as stated fails: a create attempt whose
component fees sum to 0, against a table that DOES hold an active structure
for the same class and year, is rejected with InvalidFeeTotal, not with
DuplicateFeeStructure (the total check runs first). -/
theorem claim_c5_counterexample :
    hasActiveDuplicate "c1" "y1" [dupRow] = true
    ∧ handleSave zeroFeeInput [dupRow] "f2" = .error .invalidFeeTotal
    ∧ handleSave zeroFeeInput [dupRow] "f2" ≠ .error .duplicateFeeStructure := by
  refine ⟨by decide, by rfl, ?_⟩
  intro h
  simp [handleSave, zeroFeeInput] at h

/-- C5 amended — for every create (non-edit) attempt with a class and year
selected and a positive component sum, if an active structure already exists
for the same (class_id, academic_year_id) pair the operation is rejected with
DuplicateFeeStructure before any write is handed to storage and the stored
rows are unchanged (when the component sum is ≤ 0, InvalidFeeTotal takes
precedence). -/
theorem claim_c5_duplicate_guard (inp : SaveInput) (rows : List FeeStructureRow)
    (newId : String) (hedit : inp.editingId = none) (hc : inp.classId ≠ "")
    (hy : inp.yearId ≠ "") (hsum : 0 < inp.tuition + inp.exam + inp.other)
    (hdup : hasActiveDuplicate inp.classId inp.yearId rows = true) :
    handleSave inp rows newId = .error .duplicateFeeStructure
    ∧ runSave inp rows newId = rows := by
  have h1 : ¬(inp.classId = "" ∨ inp.yearId = "") := by
    rintro (h | h)
    · exact hc h
    · exact hy h
  have h2 : ¬(inp.tuition + inp.exam + inp.other ≤ 0) := not_le.mpr hsum
  constructor
  · simp [handleSave, h1, h2, hedit, hdup]
  · simp [runSave, handleSave, h1, h2, hedit, hdup]

theorem claim_c5_duplicate_guard_witness :
    handleSave ⟨"c1", "y1", 100, 0, 0, none⟩ [dupRow] "f2" = .error .duplicateFeeStructure
    ∧ runSave ⟨"c1", "y1", 100, 0, 0, none⟩ [dupRow] "f2" = [dupRow] :=
  claim_c5_duplicate_guard ⟨"c1", "y1", 100, 0, 0, none⟩ [dupRow] "f2" rfl
    (by decide) (by decide) (by decide) (by decide)

/-- C6 — InvalidFeeTotal: every create or update attempt (a class and year
are selected) whose component fees sum to ≤ 0 is rejected with
InvalidFeeTotal, no write is performed, and the stored rows are unchanged. -/
theorem claim_c6_invalid_total (inp : SaveInput) (rows : List FeeStructureRow)
    (newId : String) (hc : inp.classId ≠ "") (hy : inp.yearId ≠ "")
    (hsum : inp.tuition + inp.exam + inp.other ≤ 0) :
    handleSave inp rows newId = .error .invalidFeeTotal
    ∧ runSave inp rows newId = rows := by
  have h1 : ¬(inp.classId = "" ∨ inp.yearId = "") := by
    rintro (h | h)
    · exact hc h
    · exact hy h
  constructor
  · simp [handleSave, h1, hsum]
  · simp [runSave, handleSave, h1, hsum]

theorem claim_c6_invalid_total_witness :
    handleSave zeroFeeInput [dupRow] "f2" = .error .invalidFeeTotal
    ∧ runSave zeroFeeInput [dupRow] "f2" = [dupRow] :=
  claim_c6_invalid_total zeroFeeInput [dupRow] "f2" (by decide) (by decide) (by decide)

/-- C7 — derived total invariant: every successful create or update has a
positive component sum, and every row of the resulting table is either an
untouched pre-existing row or carries
`total_fee = amount = tuition + exam + other`, both derived at write time from
the submitted components. -/
theorem claim_c7_derived_total (inp : SaveInput) (rows rows' : List FeeStructureRow)
    (newId : String) (h : handleSave inp rows newId = .ok rows') :
    0 < inp.tuition + inp.exam + inp.other
    ∧ ∀ fs ∈ rows', fs ∈ rows ∨
        (fs.total_fee = inp.tuition + inp.exam + inp.other ∧ fs.amount = fs.total_fee) := by
  by_cases h1 : inp.classId = "" ∨ inp.yearId = ""
  · rw [handleSave, if_pos h1] at h
    simp at h
  by_cases h2 : inp.tuition + inp.exam + inp.other ≤ 0
  · rw [handleSave, if_neg h1, if_pos h2] at h
    simp at h
  refine ⟨not_le.mp h2, ?_⟩
  cases hedit : inp.editingId with
  | none =>
    rw [handleSave, if_neg h1, if_neg h2, hedit] at h
    by_cases h3 : hasActiveDuplicate inp.classId inp.yearId rows = true
    · rw [if_pos h3] at h
      simp at h
    · rw [if_neg h3] at h
      have hrows : rows ++ [mkPayload inp newId] = rows' := by
        simpa using h
      intro fs hfs
      rw [← hrows] at hfs
      rcases List.mem_append.mp hfs with hfs | hfs
      · exact Or.inl hfs
      · right
        rw [List.mem_singleton] at hfs
        subst hfs
        exact ⟨rfl, rfl⟩
  | some eid =>
    rw [handleSave, if_neg h1, if_neg h2, hedit] at h
    have hrows : (rows.map fun fs => if fs.id = eid then mkPayload inp eid else fs) = rows' := by
      simpa using h
    intro fs hfs
    rw [← hrows] at hfs
    obtain ⟨orig, horig, hfs⟩ := List.mem_map.mp hfs
    by_cases ho : orig.id = eid
    · right
      rw [← hfs, if_pos ho]
      exact ⟨rfl, rfl⟩
    · left
      rw [← hfs, if_neg ho]
      exact horig

theorem claim_c7_derived_total_witness :
    (mkPayload createInput "f1").total_fee = 65000
    ∧ (mkPayload createInput "f1").amount = 65000 := by
  have h := claim_c7_derived_total createInput [] [mkPayload createInput "f1"] "f1" (by rfl)
  have h2 := h.2 (mkPayload createInput "f1") (by simp)
  rcases h2 with h2 | h2
  · simp at h2
  · refine ⟨?_, ?_⟩
    · rw [h2.1]
      decide
    · rw [h2.2, h2.1]
      decide

/-- C9 — division safety: every per-student group produced by the leaderboard
aggregation has a count of at least 1, so the average of every aggregated
entry is the rounded division `jsRound totalScore count` (the guarded
`count > 0 ? ... : 0` fallback of average 0 is never taken and no division by
zero occurs). -/
theorem claim_c9_group_counts (rs : List ScoreRecord) :
    (∀ e ∈ aggregate rs, 0 < e.count)
    ∧ (∀ e ∈ withAverage (aggregate rs), e.average = jsRound e.totalScore e.count) := by
  refine ⟨aggregate_count_pos rs, ?_⟩
  intro e he
  simp only [withAverage, List.mem_map] at he
  obtain ⟨a, ha, rfl⟩ := he
  simp [aggregate_count_pos rs a ha]

theorem claim_c9_group_counts_witness :
    0 < (⟨"s1", 90, 1⟩ : AggEntry).count
    ∧ (⟨"s1", 90, 1, 90⟩ : AvgEntry).average =
        jsRound (⟨"s1", 90, 1, 90⟩ : AvgEntry).totalScore (⟨"s1", 90, 1, 90⟩ : AvgEntry).count :=
  ⟨(claim_c9_group_counts exTie).1 ⟨"s1", 90, 1⟩ (by decide),
   (claim_c9_group_counts exTie).2 ⟨"s1", 90, 1, 90⟩ (by decide)⟩

/-- C10 — soft delete: deleting a fee structure keeps the table's length, maps
every row to a row with identical id, class, year, fee components, total,
amount and fee type, flipping only `is_active` (and only on the row with the
deleted id), and once deactivated a structure no longer trips the duplicate
guard: if the guard still fires for some (class, year) after the delete, an
active structure other than the deleted one already existed for that pair. -/
theorem claim_c10_soft_delete (deleteId : String) (rows : List FeeStructureRow)
    (c y : String) :
    (handleDelete deleteId rows).length = rows.length
    ∧ (∀ fs ∈ rows,
        ({ fs with is_active := if fs.id = deleteId then false else fs.is_active } :
          FeeStructureRow) ∈ handleDelete deleteId rows)
    ∧ (hasActiveDuplicate c y (handleDelete deleteId rows) = true →
        ∃ fs, fs ∈ rows ∧ fs.id ≠ deleteId ∧ fs.is_active = true
          ∧ fs.class_id = c ∧ fs.academic_year_id = y) := by
  refine ⟨by simp [handleDelete], ?_, ?_⟩
  · intro fs hfs
    simp only [handleDelete]
    refine List.mem_map.mpr ⟨fs, hfs, ?_⟩
    by_cases h : fs.id = deleteId <;> simp [h]
  · intro hdup
    simp only [hasActiveDuplicate, handleDelete, List.any_eq_true, List.mem_map] at hdup
    obtain ⟨fs', ⟨orig, horig, hfs'⟩, hp⟩ := hdup
    rw [decide_eq_true_eq] at hp
    by_cases ho : orig.id = deleteId
    · rw [if_pos ho] at hfs'
      rw [← hfs'] at hp
      simp at hp
    · rw [if_neg ho] at hfs'
      subst hfs'
      exact ⟨orig, horig, ho, hp.2.2, hp.1, hp.2.1⟩

theorem claim_c10_soft_delete_witness :
    ({ dupRow with is_active := false } : FeeStructureRow) ∈ handleDelete "f1" [dupRow] := by
  have h := (claim_c10_soft_delete "f1" [dupRow] "c1" "y1").2.1 dupRow (by decide)
  simpa using h
